import Mathlib

/-!
# CuriePME register driver: a shallow embedding of `src/CuriePME.cpp`

The driver composes two bus primitives (`regRead16`, `regWrite16`) into the
operations of the pattern-matching engine.  The embedding threads an explicit
driver state through every operation.  That state holds the device behind the
bus, the member `nsr_save`, the ordered log of register transactions and the
ordered log of the indices at which the caller's pattern buffer was read.

Machine integers are `Nat`/`Int` with explicit reduction: a `uint16_t` is a
`Nat` taken `% 65536`, the `uint8_t` loop counter is a `Nat` taken `% 256`.
An `int`/`int32_t` is an `Int`, and the two signed subtractions of the source
(`vector_length - 1`, `neuronID - 1`) are the exact predecessor: signed
arithmetic has no wraparound in C, so no reduction is applied to it.  The one
input where the C expression has no defined value, `vector_length = INT32_MIN`,
thereby gets the mathematical predecessor, a negative index.
-/

namespace CuriePME

/-! ## Registers, bus and driver state -/

/-- The named registers of the engine (the spec's register set). -/
inductive Reg
  | NCR | COMP | LCOMP | IDX_DIST | CAT | AIF | MINIF | MAXIF | NID
  | GCR | RSTCHAIN | NSR | FORGET_NCOUNT | TESTCOMP | TESTCAT
  deriving DecidableEq, Repr

/-- One register transaction: a read that returned `v`, or a write of `v`. -/
inductive Event
  | rd (r : Reg) (v : Nat)
  | wr (r : Reg) (v : Nat)
  deriving DecidableEq, Repr

/-- The device behind the bus: what a read returns (and how it moves the
device), and how a write moves the device.  Nothing is assumed about it. -/
structure Bus (σ : Type) where
  read : Reg → σ → Nat × σ
  write : Reg → Nat → σ → σ

/-- Driver state: the device, the member `nsr_save`, the register transactions
so far (oldest first) and the pattern-buffer indices read so far (oldest first). -/
structure Drv (σ : Type) where
  dev : σ
  nsr_save : Nat
  trace : List Event
  loads : List Int

/-- Modelled from the spec: the constants, masks and enumerator codes of
`CuriePME.h`, which is not among the sources.  They are parameters of every
operation; `vectorElemMod` is the modulus of one element of
`neuronData::vector` (256 for a byte, 65536 for a 16-bit element). -/
structure Consts where
  maxVectorSize : Int
  firstNeuronID : Int
  lastNeuronID : Int
  saveRestoreSize : Int
  vectorElemMod : Nat
  NCR_CONTEXT : Nat
  CAT_CATEGORY : Nat
  GCR_DIST : Nat
  GCR_GLOBAL : Nat
  NSR_CLASS_MODE : Nat
  NSR_NET_MODE : Nat
  L1_Distance : Nat
  LSUP_Distance : Nat
  RBF_Mode : Nat
  KNN_Mode : Nat

/-- The enumeration `PATTERN_MATCHING_DISTANCE_MODE`. -/
inductive PATTERN_MATCHING_DISTANCE_MODE
  | L1_Distance | LSUP_Distance
  deriving DecidableEq, Repr

/-- The enumeration `PATTERN_MATCHING_CLASSIFICATION_MODE`. -/
inductive PATTERN_MATCHING_CLASSIFICATION_MODE
  | RBF_Mode | KNN_Mode
  deriving DecidableEq, Repr

/-- The integer value of a distance-mode enumerator. -/
def distanceCode (K : Consts) : PATTERN_MATCHING_DISTANCE_MODE → Nat
  | .L1_Distance => K.L1_Distance
  | .LSUP_Distance => K.LSUP_Distance

/-- The integer value of a classification-mode enumerator. -/
def classificationCode (K : Consts) : PATTERN_MATCHING_CLASSIFICATION_MODE → Nat
  | .RBF_Mode => K.RBF_Mode
  | .KNN_Mode => K.KNN_Mode

/-- Modelled from the spec: one instance of the header's constants.  The spec
fixes the neuron-ID range [1,128], the category field as the low 15 bits of
CAT, the 7-bit context range and 16-bit vector components; `configure` places
the distance bit at position 7 and the classifier bit at position 5.  The spec
gives no number for the two vector sizes and the network-mode bit: 128, 128
and bit 4 (the Curie engine's values) are taken here.  The general theorems
hold for every `Consts`; this instance only supplies concrete inputs. -/
def curie : Consts where
  maxVectorSize := 128
  firstNeuronID := 1
  lastNeuronID := 128
  saveRestoreSize := 128
  vectorElemMod := 65536
  NCR_CONTEXT := 0x007F
  CAT_CATEGORY := 0x7FFF
  GCR_DIST := 0x0080
  GCR_GLOBAL := 0x007F
  NSR_CLASS_MODE := 0x0020
  NSR_NET_MODE := 0x0010
  L1_Distance := 0
  LSUP_Distance := 1
  RBF_Mode := 0
  KNN_Mode := 1

/-! ## Machine arithmetic -/

/-- Conversion of an `int` to `uint16_t`. -/
def toU16 (x : Int) : Nat := (x % 65536).toNat

/-- The operator `~` on the 32-bit pattern of a non-negative `int`. -/
def not32 (m : Nat) : Nat := 4294967295 ^^^ m

/-! ## Bus primitives and the pattern buffer -/

/-- Modelled from the spec: `regRead16`, the external register-read primitive
(declared in `CuriePME.h`); it returns a 16-bit value.  The read is logged. -/
def regRead16 {σ : Type} (bus : Bus σ) (r : Reg) (s : Drv σ) : Nat × Drv σ :=
  let v := (bus.read r s.dev).1 % 65536
  (v, { s with dev := (bus.read r s.dev).2, trace := s.trace ++ [Event.rd r v] })

/-- Modelled from the spec: `regWrite16`, the external register-write primitive
(declared in `CuriePME.h`); its value parameter is a `uint16_t`.  The write is
logged. -/
def regWrite16 {σ : Type} (bus : Bus σ) (r : Reg) (v : Nat) (s : Drv σ) : Drv σ :=
  { s with dev := bus.write r (v % 65536) s.dev,
           trace := s.trace ++ [Event.wr r (v % 65536)] }

/-- A `uint8_t*` argument: the bytes of the caller's buffer, at indices
`0 .. bytes.length - 1`, and whatever lies in memory around the buffer, by
index relative to the pointer. -/
structure Pattern where
  bytes : List Nat
  around : Int → Nat

/-- Total indexing of a `uint8_t*` buffer: the buffer's byte at `i` when `i` is
inside the buffer; on the out-of-bounds branch, the byte memory holds there. -/
def byteAt (buf : Pattern) (i : Int) : Nat :=
  if 0 ≤ i ∧ i < buf.bytes.length then buf.bytes.getD i.toNat 0 % 256 else buf.around i % 256

/-- The expression `pattern_vector[i]`: the byte, with the index logged. -/
def loadAt {σ : Type} (buf : Pattern) (i : Int) (s : Drv σ) : Nat × Drv σ :=
  (byteAt buf i, { s with loads := s.loads ++ [i] })

/-- The loop `for (int i = 0; i < bound; i++) body(i)` with a loop-invariant
bound: the `int` counter takes the values `0 .. bound-1` in order. -/
def forInt {α : Type} (bound : Int) (body : Int → α → α) (s : α) : α :=
  (List.range bound.toNat).foldl (fun acc i => body (i : Int) acc) s

/-! ## learn, classify, writeVector -/

/-- One iteration of the COMP loops: `regWrite16(COMP, pattern_vector[i])`. -/
def compStep {σ : Type} (bus : Bus σ) (pattern_vector : Pattern) (i : Int)
    (s : Drv σ) : Drv σ :=
  regWrite16 bus Reg.COMP (loadAt pattern_vector i s).1 (loadAt pattern_vector i s).2

/-- The method `Intel_PMT::learn`. -/
def learn {σ : Type} (K : Consts) (bus : Bus σ) (pattern_vector : Pattern)
    (vector_length : Int) (category : Nat) (s : Drv σ) : Nat × Drv σ :=
  let vector_length :=
    if vector_length > K.maxVectorSize then K.maxVectorSize else vector_length
  let s := forInt (vector_length - 1) (compStep bus pattern_vector) s
  let last := loadAt pattern_vector (vector_length - 1) s
  let s := regWrite16 bus Reg.LCOMP last.1 last.2
  let cat := regRead16 bus Reg.CAT s
  let s := regWrite16 bus Reg.CAT
    ((cat.1 &&& not32 K.CAT_CATEGORY) ||| (category &&& K.CAT_CATEGORY)) cat.2
  regRead16 bus Reg.FORGET_NCOUNT s

/-- The loop `for (index = 0; index < (vector_length - 1); index++)` of
`classify` and `writeVector`, whose counter is a `uint8_t`: the increment
wraps at 256.  `none` when the fuel runs out before the loop exits. -/
def compLoop8 {σ : Type} (bus : Bus σ) (pattern_vector : Pattern) (bound : Int) :
    Nat → Nat → Drv σ → Option (Drv σ)
  | 0, _, _ => none
  | fuel + 1, index, s =>
    if (index : Int) < bound then
      compLoop8 bus pattern_vector bound fuel ((index + 1) % 256)
        (compStep bus pattern_vector index s)
    else some s

/-- The method `Intel_PMT::classify`; `none` when the fuel runs out. -/
def classify {σ : Type} (K : Consts) (bus : Bus σ) (pattern_vector : Pattern)
    (vector_length : Int) (fuel : Nat) (s : Drv σ) : Option (Nat × Drv σ) :=
  if vector_length > K.maxVectorSize then some (toU16 (-1), s)
  else
    match compLoop8 bus pattern_vector (vector_length - 1) fuel 0 s with
    | none => none
    | some s =>
      let last := loadAt pattern_vector (vector_length - 1) s
      let s := regWrite16 bus Reg.LCOMP last.1 last.2
      let cat := regRead16 bus Reg.CAT s
      some ((cat.1 &&& K.CAT_CATEGORY) % 65536, cat.2)

/-- The record `neuronData`: four `uint16_t` fields and the array `vector`. -/
structure neuronData where
  context : Nat
  influence : Nat
  minInfluence : Nat
  category : Nat
  vector : List Nat
  deriving DecidableEq, Repr

/-- The method `Intel_PMT::beginSaveMode`. -/
def beginSaveMode {σ : Type} (K : Consts) (bus : Bus σ) (s : Drv σ) : Drv σ :=
  let r := regRead16 bus Reg.NSR s
  let s := { r.2 with nsr_save := r.1 }
  let r := regRead16 bus Reg.NSR s
  let s := regWrite16 bus Reg.NSR (r.1 ||| K.NSR_NET_MODE) r.2
  regWrite16 bus Reg.RSTCHAIN 0 s

/-- One iteration of the loop of `iterateNeuronsToSave`:
`array.vector[i] = regRead16(COMP)`, the value converted to the element type. -/
def saveStep {σ : Type} (K : Consts) (bus : Bus σ) (i : Int)
    (p : neuronData × Drv σ) : neuronData × Drv σ :=
  let r := regRead16 bus Reg.COMP p.2
  ({ p.1 with vector := p.1.vector.set i.toNat (r.1 % K.vectorElemMod) }, r.2)

/-- The method `Intel_PMT::iterateNeuronsToSave`: the value returned, the
record filled in place, the driver state. -/
def iterateNeuronsToSave {σ : Type} (K : Consts) (bus : Bus σ) (array : neuronData)
    (s : Drv σ) : Nat × neuronData × Drv σ :=
  let r := regRead16 bus Reg.NCR s
  let array := { array with context := r.1 }
  let p := forInt K.saveRestoreSize (saveStep K bus) (array, r.2)
  let r := regRead16 bus Reg.AIF p.2
  let array := { p.1 with influence := r.1 }
  let r := regRead16 bus Reg.MINIF r.2
  let array := { array with minInfluence := r.1 }
  let r := regRead16 bus Reg.CAT r.2
  let array := { array with category := r.1 }
  (array.category, array, r.2)

/-- The method `Intel_PMT::endSaveMode`. -/
def endSaveMode {σ : Type} (K : Consts) (bus : Bus σ) (s : Drv σ) : Drv σ :=
  regWrite16 bus Reg.NSR (s.nsr_save &&& not32 K.NSR_NET_MODE) s

/-- One iteration of the loop of `iterateNeuronsToRestore`:
`regWrite16(COMP, array.vector[i])`. -/
def restoreStep {σ : Type} (bus : Bus σ) (array : neuronData) (i : Int)
    (s : Drv σ) : Drv σ :=
  regWrite16 bus Reg.COMP (array.vector.getD i.toNat 0) s

/-- The method `Intel_PMT::iterateNeuronsToRestore`. -/
def iterateNeuronsToRestore {σ : Type} (K : Consts) (bus : Bus σ) (array : neuronData)
    (s : Drv σ) : Nat × Drv σ :=
  let s := regWrite16 bus Reg.NCR array.context s
  let s := forInt K.saveRestoreSize (restoreStep bus array) s
  let s := regWrite16 bus Reg.AIF array.influence s
  let s := regWrite16 bus Reg.MINIF array.minInfluence s
  let s := regWrite16 bus Reg.CAT array.category s
  (0, s)

/-- The clamping of `neuronID` at the head of `readNeuron`. -/
def clampNeuronID (K : Consts) (neuronID : Int) : Int :=
  let neuronID := if neuronID < K.firstNeuronID then K.firstNeuronID else neuronID
  if neuronID > K.lastNeuronID then K.lastNeuronID else neuronID

/-- The chain-advance loop of `readNeuron`: `dummy = regRead16(CAT)`. -/
def advanceStep {σ : Type} (bus : Bus σ) (_i : Int) (s : Drv σ) : Drv σ :=
  (regRead16 bus Reg.CAT s).2

/-- The method `Intel_PMT::readNeuron`: the value returned, the record filled
in place, the driver state. -/
def readNeuron {σ : Type} (K : Consts) (bus : Bus σ) (neuronID : Int)
    (data_array : neuronData) (s : Drv σ) : Nat × neuronData × Drv σ :=
  let neuronID := clampNeuronID K neuronID
  let s := beginSaveMode K bus s
  let s := forInt (neuronID - 1) (advanceStep bus) s
  let r := iterateNeuronsToSave K bus data_array s
  let s := endSaveMode K bus r.2.2
  (0, r.2.1, s)

/-! ## configure and the mode accessors -/

/-- The method `Intel_PMT::configure`. -/
def configure {σ : Type} (K : Consts) (bus : Bus σ) (global_context : Nat)
    (distance_mode : PATTERN_MATCHING_DISTANCE_MODE)
    (classification_mode : PATTERN_MATCHING_CLASSIFICATION_MODE)
    (minAIF maxAIF : Nat) (s : Drv σ) : Drv σ :=
  let s := regWrite16 bus Reg.GCR (global_context ||| (distanceCode K distance_mode <<< 7)) s
  let r := regRead16 bus Reg.NSR s
  let s := regWrite16 bus Reg.NSR (r.1 ||| (classificationCode K classification_mode <<< 5)) r.2
  let s := regWrite16 bus Reg.MINIF minAIF s
  regWrite16 bus Reg.MAXIF maxAIF s

/-- The method `Intel_PMT::getDistanceMode`. -/
def getDistanceMode {σ : Type} (K : Consts) (bus : Bus σ) (s : Drv σ) :
    PATTERN_MATCHING_DISTANCE_MODE × Drv σ :=
  let r := regRead16 bus Reg.GCR s
  (if K.GCR_DIST &&& r.1 ≠ 0 then .LSUP_Distance else .L1_Distance, r.2)

/-- The method `Intel_PMT::setDistanceMode`. -/
def setDistanceMode {σ : Type} (K : Consts) (bus : Bus σ)
    (mode : PATTERN_MATCHING_DISTANCE_MODE) (s : Drv σ) : Drv σ :=
  let rd := regRead16 bus Reg.GCR s
  regWrite16 bus Reg.GCR
    (if mode = .LSUP_Distance then rd.1 ||| K.GCR_DIST else rd.1 &&& not32 K.GCR_DIST) rd.2

/-- The method `Intel_PMT::getGlobalContext`. -/
def getGlobalContext {σ : Type} (K : Consts) (bus : Bus σ) (s : Drv σ) : Nat × Drv σ :=
  let r := regRead16 bus Reg.GCR s
  ((K.GCR_GLOBAL &&& r.1) % 65536, r.2)

/-- The method `Intel_PMT::setGlobalContext`. -/
def setGlobalContext {σ : Type} (K : Consts) (bus : Bus σ) (context : Nat)
    (s : Drv σ) : Drv σ :=
  let r := regRead16 bus Reg.GCR s
  let gcrMask := (not32 K.GCR_GLOBAL &&& r.1) % 65536
  let gcrMask := (gcrMask ||| (context &&& K.GCR_GLOBAL)) % 65536
  regWrite16 bus Reg.GCR gcrMask r.2

/-- The method `Intel_PMT::getNeuronContext`. -/
def getNeuronContext {σ : Type} (K : Consts) (bus : Bus σ) (s : Drv σ) : Nat × Drv σ :=
  let r := regRead16 bus Reg.NCR s
  ((K.NCR_CONTEXT &&& r.1) % 65536, r.2)

/-- The method `Intel_PMT::setNeuronContext`. -/
def setNeuronContext {σ : Type} (K : Consts) (bus : Bus σ) (context : Nat)
    (s : Drv σ) : Drv σ :=
  let r := regRead16 bus Reg.NCR s
  let ncrMask := (not32 K.NCR_CONTEXT &&& r.1) % 65536
  let ncrMask := (ncrMask ||| (context &&& K.NCR_CONTEXT)) % 65536
  regWrite16 bus Reg.NCR ncrMask r.2

/-- The method `Intel_PMT::getClassifierMode`. -/
def getClassifierMode {σ : Type} (K : Consts) (bus : Bus σ) (s : Drv σ) :
    PATTERN_MATCHING_CLASSIFICATION_MODE × Drv σ :=
  let r := regRead16 bus Reg.NSR s
  (if r.1 &&& K.NSR_CLASS_MODE ≠ 0 then .KNN_Mode else .RBF_Mode, r.2)

/-- The method `Intel_PMT::setClassifierMode`. -/
def setClassifierMode {σ : Type} (K : Consts) (bus : Bus σ)
    (mode : PATTERN_MATCHING_CLASSIFICATION_MODE) (s : Drv σ) : Drv σ :=
  let r := regRead16 bus Reg.NSR s
  let mask := (r.1 &&& not32 K.NSR_CLASS_MODE) % 65536
  let mask := if mode = .KNN_Mode then (mask ||| K.NSR_CLASS_MODE) % 65536 else mask
  regWrite16 bus Reg.NSR mask r.2

/-! ## A memory-like device -/

/-- A device on which every register is a plain cell: a read returns the last
value written to that register and changes nothing. -/
def memBus : Bus (Reg → Nat) where
  read r m := (m r, m)
  write r v m := fun q => if q = r then v else m q

/-- A driver state over the memory-like device with empty logs. -/
def initMem (m : Reg → Nat) : Drv (Reg → Nat) :=
  { dev := m, nsr_save := 0, trace := [], loads := [] }

/-! ## Expected transaction sequences -/

/-- The driver state after a read of register `r` followed by a write of `w`
to the same register, and no other transaction. -/
def readThenWrite {σ : Type} (bus : Bus σ) (r : Reg) (w : Nat) (s : Drv σ) : Drv σ :=
  { dev := bus.write r w (bus.read r s.dev).2,
    nsr_save := s.nsr_save,
    trace := s.trace ++ [Event.rd r ((bus.read r s.dev).1 % 65536), Event.wr r w],
    loads := s.loads }


/-- The COMP writes of the first `n` bytes of a pattern, in index order. -/
def compWrites (pattern_vector : Pattern) (n : Nat) : List Event :=
  (List.range n).map (fun i => Event.wr Reg.COMP (byteAt pattern_vector (i : Int)))

/-- The reads of `iterateNeuronsToSave` in order: NCR, COMP once per vector
component, AIF, MINIF, CAT, with the values they returned. -/
def saveReads (ctx : Nat) (comps : List Nat) (aif minif cat : Nat) : List Event :=
  [Event.rd Reg.NCR ctx] ++ comps.map (Event.rd Reg.COMP)
    ++ [Event.rd Reg.AIF aif, Event.rd Reg.MINIF minif, Event.rd Reg.CAT cat]

/-- The writes of `iterateNeuronsToRestore` for a record in order: context to
NCR, the vector components to COMP, influence to AIF, minInfluence to MINIF,
category to CAT. -/
def restoreWrites (r : neuronData) : List Event :=
  [Event.wr Reg.NCR r.context] ++ r.vector.map (Event.wr Reg.COMP)
    ++ [Event.wr Reg.AIF r.influence, Event.wr Reg.MINIF r.minInfluence,
        Event.wr Reg.CAT r.category]

/-- The read that returns what a write wrote, on the same register. -/
def asRead : Event → Event
  | Event.wr r v => Event.rd r v
  | Event.rd r v => Event.rd r v

/-- A record as the C type holds it: 16-bit fields, and a vector of
`saveRestoreSize` elements of the element type. -/
def neuronData.WF (K : Consts) (r : neuronData) : Prop :=
  r.context < 65536 ∧ r.influence < 65536 ∧ r.minInfluence < 65536 ∧ r.category < 65536 ∧
  r.vector.length = K.saveRestoreSize.toNat ∧ ∀ v ∈ r.vector, v < K.vectorElemMod

/-- A device that hands back, read after read, the values written to it, in
the order they were written (whatever the register). -/
def fifoBus : Bus (List Nat) where
  read _ q := (q.headD 0, q.tail)
  write _ v q := q ++ [v]

instance neuronData.decidableWF (K : Consts) (r : neuronData) : Decidable (r.WF K) := by
  unfold neuronData.WF
  exact inferInstance

/-- A driver state over the replaying device, nothing written yet. -/
def fifoStart : Drv (List Nat) :=
  { dev := [], nsr_save := 0, trace := [], loads := [] }

/-- A sample record: 128 distinct vector components and distinct field values. -/
def sampleRecord : neuronData :=
  { context := 1, influence := 0x4000, minInfluence := 2, category := 5,
    vector := List.range 128 }

/-- A zeroed record of 128 components, as a caller would pass to be filled. -/
def blankRecord : neuronData :=
  { context := 0, influence := 0, minInfluence := 0, category := 0,
    vector := List.replicate 128 0 }

/-- A 3-byte buffer; memory around it holds the byte 167 everywhere. -/
def shortPattern : Pattern :=
  { bytes := [10, 20, 30], around := fun _ => 167 }

/-- A 200-byte buffer; memory around it holds the byte 167 everywhere. -/
def longPattern : Pattern :=
  { bytes := List.replicate 200 7, around := fun _ => 167 }

/-! ## Basic facts about the primitives and the loops -/

theorem byteAt_lt (buf : Pattern) (i : Int) : byteAt buf i < 256 := by
  unfold byteAt
  split
  · exact Nat.mod_lt _ (by decide)
  · exact Nat.mod_lt _ (by decide)

theorem byteAt_mod (buf : Pattern) (i : Int) : byteAt buf i % 65536 = byteAt buf i :=
  Nat.mod_eq_of_lt (Nat.lt_trans (byteAt_lt buf i) (by decide))

theorem forInt_nonpos {α : Type} {bound : Int} (h : bound ≤ 0) (body : Int → α → α) (s : α) :
    forInt bound body s = s := by
  have h0 : bound.toNat = 0 := by omega
  simp [forInt, h0]

theorem forInt_succ {α : Type} (n : Nat) (body : Int → α → α) (s : α) :
    forInt ((n : Int) + 1) body s = body (n : Int) (forInt (n : Int) body s) := by
  have h1 : ((n : Int) + 1).toNat = n + 1 := by omega
  simp [forInt, h1, List.range_succ, List.foldl_append]

theorem forInt_toNat {α : Type} (bound : Int) (body : Int → α → α) (s : α) :
    forInt bound body s = forInt (bound.toNat : Int) body s := by
  have h : ((bound.toNat : Nat) : Int).toNat = bound.toNat := by omega
  unfold forInt
  rw [h]

section CompLoop
variable {σ : Type} (bus : Bus σ) (pattern_vector : Pattern)

theorem compStep_trace (i : Int) (s : Drv σ) :
    (compStep bus pattern_vector i s).trace
      = s.trace ++ [Event.wr Reg.COMP (byteAt pattern_vector i)] := by
  simp [compStep, regWrite16, loadAt, byteAt_mod]

theorem forInt_comp_trace (n : Nat) (s : Drv σ) :
    (forInt (n : Int) (compStep bus pattern_vector) s).trace
      = s.trace ++ compWrites pattern_vector n := by
  induction n with
  | zero => simp [forInt, compWrites]
  | succ k ih =>
    have h := forInt_succ k (compStep bus pattern_vector) s
    rw [Nat.cast_succ, h, compStep_trace, ih]
    simp [compWrites, List.range_succ]

/-- While the bound fits the 8-bit counter, the `uint8_t` loop started at
`index` performs the remaining iterations of the `int` loop and exits. -/
theorem compLoop8_run (n : Nat) (hn : n ≤ 255) :
    ∀ (k index fuel : Nat) (s : Drv σ), index + k = n → k < fuel →
      compLoop8 bus pattern_vector (n : Int) fuel index s
        = some ((List.range' index k).foldl
            (fun acc i => compStep bus pattern_vector (i : Int) acc) s) := by
  intro k
  induction k with
  | zero =>
    intro index fuel s h hf
    obtain ⟨f, rfl⟩ : ∃ f, fuel = f + 1 := ⟨fuel - 1, by omega⟩
    have : ¬ ((index : Int) < (n : Int)) := by omega
    simp [compLoop8, this]
  | succ k ih =>
    intro index fuel s h hf
    obtain ⟨f, rfl⟩ : ∃ f, fuel = f + 1 := ⟨fuel - 1, by omega⟩
    have hlt : (index : Int) < (n : Int) := by omega
    have hw : (index + 1) % 256 = index + 1 := Nat.mod_eq_of_lt (by omega)
    simp only [compLoop8, hlt, if_true, hw]
    rw [ih (index + 1) f _ (by omega) (by omega)]
    simp [List.range'_succ]

/-- The `uint8_t` loop with a bound of at most 255 is the `int` loop. -/
theorem compLoop8_eq_forInt (bound : Int) (hb : bound ≤ 255) (fuel : Nat)
    (hf : bound.toNat < fuel) (s : Drv σ) :
    compLoop8 bus pattern_vector bound fuel 0 s
      = some (forInt bound (compStep bus pattern_vector) s) := by
  rcases Int.lt_or_le bound 0 with hneg | hpos
  · obtain ⟨f, rfl⟩ : ∃ f, fuel = f + 1 := ⟨fuel - 1, by omega⟩
    have : ¬ ((0 : Int) < bound) := by omega
    simp [compLoop8, this, forInt_nonpos (Int.le_of_lt hneg)]
  · obtain ⟨n, rfl⟩ : ∃ n : Nat, bound = (n : Int) := ⟨bound.toNat, by omega⟩
    rw [compLoop8_run bus pattern_vector n (by omega) n 0 fuel s (by omega) (by omega)]
    simp [forInt, List.range_eq_range']

/-- A bound the 8-bit counter cannot reach: the loop never exits. -/
theorem compLoop8_diverges (bound : Int) (hb : 256 ≤ bound) :
    ∀ (fuel index : Nat) (s : Drv σ), index < 256 →
      compLoop8 bus pattern_vector bound fuel index s = none := by
  intro fuel
  induction fuel with
  | zero => intro index s _; rfl
  | succ f ih =>
    intro index s hi
    have hlt : (index : Int) < bound := by omega
    simp only [compLoop8, hlt, if_true]
    exact ih _ _ (Nat.mod_lt _ (by decide))

end CompLoop

/-! ## learn: the transaction sequence -/

section Learn
variable {σ : Type} (K : Consts) (bus : Bus σ) (pattern_vector : Pattern)

/-- The transactions of `learn` for a length that is not clamped, with `b` its
predecessor `vector_length - 1`. -/
theorem learn_trace_of_le (vector_length : Int) (category : Nat) (s : Drv σ)
    (hle : ¬ vector_length > K.maxVectorSize) (b : Int)
    (hb : vector_length - 1 = b) :
    ∃ c n, (learn K bus pattern_vector vector_length category s).1 = n ∧
      (learn K bus pattern_vector vector_length category s).2.trace
        = s.trace ++ compWrites pattern_vector b.toNat ++
          [Event.wr Reg.LCOMP (byteAt pattern_vector b), Event.rd Reg.CAT c,
           Event.wr Reg.CAT
             (((c &&& not32 K.CAT_CATEGORY) ||| (category &&& K.CAT_CATEGORY)) % 65536),
           Event.rd Reg.FORGET_NCOUNT n] := by
  refine ⟨(bus.read Reg.CAT (bus.write Reg.LCOMP (byteAt pattern_vector b)
      (forInt (b.toNat : Int) (compStep bus pattern_vector) s).dev)).1 % 65536, _, rfl, ?_⟩
  simp only [learn, hle, if_false, hb, regRead16, regWrite16, loadAt, byteAt_mod]
  rw [forInt_toNat, forInt_comp_trace]
  simp only [List.append_assoc, List.singleton_append, List.cons_append, List.nil_append]

theorem learn_clamp_eq (vector_length : Int) (category : Nat) (s : Drv σ)
    (h : vector_length > K.maxVectorSize) :
    learn K bus pattern_vector vector_length category s
      = learn K bus pattern_vector K.maxVectorSize category s := by
  have h2 : ¬ K.maxVectorSize > K.maxVectorSize := by omega
  simp only [learn, h, if_true, h2, if_false]

end Learn

/-- C1: for every pattern buffer, category, device and driver state, and every
`vector_length > maxVectorSize`, `learn` behaves exactly as
`learn(pattern, maxVectorSize, category)` from the same state (same return
value, same device state, same transaction log), and that log extends the
prior one by: `pattern[0 .. maxVectorSize-2]` written to COMP in order,
`pattern[maxVectorSize-1]` written to LCOMP, a read of CAT returning some `c`,
the write of `(c & ~CAT_CATEGORY) | (category & CAT_CATEGORY)` to CAT, and the
read of FORGET_NCOUNT whose value is returned. -/
theorem learn_clamps_to_maxVectorSize {σ : Type} (K : Consts) (bus : Bus σ)
    (pattern_vector : Pattern) (vector_length : Int) (category : Nat) (s : Drv σ)
    (h : vector_length > K.maxVectorSize) :
    learn K bus pattern_vector vector_length category s
        = learn K bus pattern_vector K.maxVectorSize category s ∧
    ∃ c n, (learn K bus pattern_vector vector_length category s).1 = n ∧
      (learn K bus pattern_vector vector_length category s).2.trace
        = s.trace ++ compWrites pattern_vector (K.maxVectorSize - 1).toNat ++
          [Event.wr Reg.LCOMP (byteAt pattern_vector (K.maxVectorSize - 1)),
           Event.rd Reg.CAT c,
           Event.wr Reg.CAT
             (((c &&& not32 K.CAT_CATEGORY) ||| (category &&& K.CAT_CATEGORY)) % 65536),
           Event.rd Reg.FORGET_NCOUNT n] := by
  refine ⟨learn_clamp_eq K bus pattern_vector vector_length category s h, ?_⟩
  rw [learn_clamp_eq K bus pattern_vector vector_length category s h]
  exact learn_trace_of_le K bus pattern_vector K.maxVectorSize category s (by omega)
    (K.maxVectorSize - 1) rfl

/-! ## classify and writeVector: the over-length guard and termination -/

section Guard
variable {σ : Type} (K : Consts) (bus : Bus σ) (pattern_vector : Pattern)

theorem toU16_neg_one : toU16 (-1) = 65535 := by decide

theorem classify_over (vector_length : Int) (fuel : Nat) (s : Drv σ)
    (h : vector_length > K.maxVectorSize) :
    classify K bus pattern_vector vector_length fuel s = some (65535, s) := by
  simp only [classify, h, if_true, toU16_neg_one]

/-- The result of `classify` on a length the guard lets through, when the
predecessor `b` of the length fits the 8-bit counter. -/
theorem classify_of_le (vector_length : Int) (fuel : Nat) (s : Drv σ)
    (hle : ¬ vector_length > K.maxVectorSize) (b : Int)
    (hb : vector_length - 1 = b) (hb255 : b ≤ 255) (hf : b.toNat < fuel) :
    classify K bus pattern_vector vector_length fuel s
      = some (((regRead16 bus Reg.CAT (regWrite16 bus Reg.LCOMP (byteAt pattern_vector b)
            (loadAt pattern_vector b (forInt b (compStep bus pattern_vector) s)).2)).1
              &&& K.CAT_CATEGORY) % 65536,
          (regRead16 bus Reg.CAT (regWrite16 bus Reg.LCOMP (byteAt pattern_vector b)
            (loadAt pattern_vector b (forInt b (compStep bus pattern_vector) s)).2)).2) := by
  simp only [classify, hle, if_false, hb,
    compLoop8_eq_forInt bus pattern_vector b hb255 fuel hf]
  rfl

end Guard

theorem testBit_not32 (m i : Nat) :
    (not32 m).testBit i = (decide (i < 32) ^^ m.testBit i) := by
  have h : (4294967295 : Nat) = 2 ^ 32 - 1 := by decide
  simp only [not32, h, Nat.testBit_xor, Nat.testBit_two_pow_sub_one]

theorem testBit_mod16 (x i : Nat) :
    (x % 65536).testBit i = (decide (i < 16) && x.testBit i) := by
  have h : (65536 : Nat) = 2 ^ 16 := by decide
  rw [h, Nat.testBit_mod_two_pow]

theorem and_mod16_of_lt {x : Nat} (m : Nat) (hx : x < 65536) : (x &&& m) % 65536 = x &&& m :=
  Nat.mod_eq_of_lt (Nat.lt_of_le_of_lt Nat.and_le_left hx)

/-- Insert-then-extract of a field: `((a & ~m) | (x & m)) & m = x & m` in 16 bits. -/
theorem field_read_back (a x m : Nat) :
    ((a &&& not32 m ||| x &&& m) % 65536 &&& m) % 65536 = (x &&& m) % 65536 := by
  apply Nat.eq_of_testBit_eq
  intro i
  simp only [testBit_mod16, Nat.testBit_and, Nat.testBit_or, testBit_not32]
  by_cases h : i < 16
  · have h2 : i < 32 := by omega
    cases a.testBit i <;> cases x.testBit i <;> cases m.testBit i <;> simp [h, h2]
  · simp [h]

/-- The field written by `setGlobalContext`/`setNeuronContext`, read through the mask. -/
theorem context_read_back (a x m : Nat) :
    (m &&& ((not32 m &&& a) % 65536 ||| x &&& m) % 65536) % 65536 = (x &&& m) % 65536 := by
  apply Nat.eq_of_testBit_eq
  intro i
  simp only [testBit_mod16, Nat.testBit_and, Nat.testBit_or, testBit_not32, Nat.zero_testBit]
  by_cases h : i < 16
  · have h2 : i < 32 := by omega
    cases a.testBit i <;> cases x.testBit i <;> cases m.testBit i <;> simp [h, h2]
  · simp [h]

/-- Writing the same field twice: the second write reproduces the first value. -/
theorem context_write_twice (a x m : Nat) :
    ((not32 m &&& ((not32 m &&& a) % 65536 ||| x &&& m) % 65536) % 65536 ||| x &&& m) % 65536
      = ((not32 m &&& a) % 65536 ||| x &&& m) % 65536 := by
  apply Nat.eq_of_testBit_eq
  intro i
  simp only [testBit_mod16, Nat.testBit_and, Nat.testBit_or, testBit_not32, Nat.zero_testBit]
  by_cases h : i < 16
  · have h2 : i < 32 := by omega
    cases a.testBit i <;> cases x.testBit i <;> cases m.testBit i <;> simp [h, h2]
  · simp [h]

/-- Setting a mask: the masked bits read back as the mask. -/
theorem set_bits_read (a m : Nat) :
    m &&& (a ||| m) % 65536 = m % 65536 := by
  apply Nat.eq_of_testBit_eq
  intro i
  simp only [testBit_mod16, Nat.testBit_and, Nat.testBit_or, testBit_not32, Nat.zero_testBit]
  by_cases h : i < 16
  · cases a.testBit i <;> cases m.testBit i <;> simp [h]
  · simp [h]

/-- Clearing a mask: the masked bits read back as zero. -/
theorem clear_bits_read (a m : Nat) :
    m &&& (a &&& not32 m) % 65536 = 0 := by
  apply Nat.eq_of_testBit_eq
  intro i
  simp only [testBit_mod16, Nat.testBit_and, Nat.testBit_or, testBit_not32, Nat.zero_testBit]
  by_cases h : i < 16
  · have h2 : i < 32 := by omega
    cases a.testBit i <;> cases m.testBit i <;> simp [h, h2]
  · simp [h]

theorem set_bits_twice (a m : Nat) :
    ((a ||| m) % 65536 ||| m) % 65536 = (a ||| m) % 65536 := by
  apply Nat.eq_of_testBit_eq
  intro i
  simp only [testBit_mod16, Nat.testBit_and, Nat.testBit_or, testBit_not32, Nat.zero_testBit]
  by_cases h : i < 16
  · cases a.testBit i <;> cases m.testBit i <;> simp [h]
  · simp [h]

theorem clear_bits_twice (a m : Nat) :
    ((a &&& not32 m) % 65536 &&& not32 m) % 65536 = (a &&& not32 m) % 65536 := by
  apply Nat.eq_of_testBit_eq
  intro i
  simp only [testBit_mod16, Nat.testBit_and, Nat.testBit_or, testBit_not32, Nat.zero_testBit]
  by_cases h : i < 16
  · have h2 : i < 32 := by omega
    cases a.testBit i <;> cases m.testBit i <;> simp [h, h2]
  · simp [h]

/-- Clear-then-set of a mask (as `setClassifierMode` does for KNN), read through the mask. -/
theorem clear_set_read (a m : Nat) :
    ((a &&& not32 m) % 65536 ||| m) % 65536 &&& m = m % 65536 := by
  apply Nat.eq_of_testBit_eq
  intro i
  simp only [testBit_mod16, Nat.testBit_and, Nat.testBit_or, testBit_not32, Nat.zero_testBit]
  by_cases h : i < 16
  · have h2 : i < 32 := by omega
    cases a.testBit i <;> cases m.testBit i <;> simp [h, h2]
  · simp [h]

theorem clear_read (a m : Nat) :
    (a &&& not32 m) % 65536 &&& m = 0 := by
  apply Nat.eq_of_testBit_eq
  intro i
  simp only [testBit_mod16, Nat.testBit_and, Nat.testBit_or, testBit_not32, Nat.zero_testBit]
  by_cases h : i < 16
  · have h2 : i < 32 := by omega
    cases a.testBit i <;> cases m.testBit i <;> simp [h, h2]
  · simp [h]

theorem clear_set_twice (a m : Nat) :
    ((((a &&& not32 m) % 65536 ||| m) % 65536 &&& not32 m) % 65536 ||| m) % 65536
      = ((a &&& not32 m) % 65536 ||| m) % 65536 := by
  apply Nat.eq_of_testBit_eq
  intro i
  simp only [testBit_mod16, Nat.testBit_and, Nat.testBit_or, testBit_not32, Nat.zero_testBit]
  by_cases h : i < 16
  · have h2 : i < 32 := by omega
    cases a.testBit i <;> cases m.testBit i <;> simp [h, h2]
  · simp [h]

/-- A field write keeps every bit outside the mask. -/
theorem context_write_frame (a x m i : Nat) (hm : m.testBit i = false) :
    (((not32 m &&& a % 65536) % 65536 ||| x &&& m) % 65536).testBit i
      = (a % 65536).testBit i := by
  simp only [testBit_mod16, Nat.testBit_and, Nat.testBit_or, testBit_not32, hm]
  by_cases h : i < 16
  · have h2 : i < 32 := by omega
    cases a.testBit i <;> cases x.testBit i <;> simp [h, h2]
  · simp [h]

theorem set_bits_frame (a m i : Nat) (hm : m.testBit i = false) :
    ((a % 65536 ||| m) % 65536).testBit i = (a % 65536).testBit i := by
  simp only [testBit_mod16, Nat.testBit_or, hm]
  by_cases h : i < 16 <;> simp [h]

theorem clear_bits_frame (a m i : Nat) (hm : m.testBit i = false) :
    ((a % 65536 &&& not32 m) % 65536).testBit i = (a % 65536).testBit i := by
  simp only [testBit_mod16, Nat.testBit_and, testBit_not32, hm]
  by_cases h : i < 16
  · have h2 : i < 32 := by omega
    simp [h, h2]
  · simp [h]

theorem clear_set_frame (a m i : Nat) (hm : m.testBit i = false) :
    (((a % 65536 &&& not32 m) % 65536 ||| m) % 65536).testBit i = (a % 65536).testBit i := by
  simp only [testBit_mod16, Nat.testBit_and, Nat.testBit_or, testBit_not32, hm]
  by_cases h : i < 16
  · have h2 : i < 32 := by omega
    simp [h, h2]
  · simp [h]

/-- An OR never clears a bit of a 16-bit value, also after truncation. -/
theorem or_keeps_bits (n x i : Nat) (h : (n % 65536).testBit i = true) :
    ((n % 65536 ||| x) % 65536).testBit i = true := by
  simp only [testBit_mod16, Nat.testBit_or] at h ⊢
  by_cases h16 : i < 16
  · simp only [h16, decide_True, Bool.true_and] at h ⊢
    simp [h]
  · simp [h16] at h

theorem or_mask_ne_zero (a x m : Nat) (h : a % 65536 &&& m ≠ 0) :
    (a % 65536 ||| x) % 65536 &&& m ≠ 0 := by
  obtain ⟨i, hi⟩ := Nat.ne_zero_implies_bit_true h
  intro h0
  have hz : ((a % 65536 ||| x) % 65536 &&& m).testBit i = false := by
    rw [h0]; exact Nat.zero_testBit i
  simp only [testBit_mod16, Nat.testBit_and, Nat.testBit_or] at hi hz
  by_cases h16 : i < 16
  · simp only [h16, decide_True, Bool.true_and] at hi hz
    cases ha : a.testBit i <;> cases hm : m.testBit i <;> simp [ha, hm] at hi hz
  · simp [h16] at hi

theorem or_shift_fits (n c : Nat) (hn : n < 65536) (hc : c < 2048) :
    (n ||| c <<< 5) % 65536 = n ||| c <<< 5 := by
  apply Nat.mod_eq_of_lt
  have h1 : c <<< 5 < 2 ^ 16 := by
    rw [Nat.shiftLeft_eq]
    omega
  exact Nat.or_lt_two_pow (by simpa using hn) h1

/-! ## Save mode on the memory-like device -/

/-- What the pair `beginSaveMode()`, `endSaveMode()` does to NSR on the
memory-like device, for every prior value: NSR ends as its prior 16-bit value
with the network-mode bits cleared.  The network-mode field is 0 afterwards,
every bit outside `NSR_NET_MODE` keeps its prior value, and so the field is
restored exactly when it was clear before `beginSaveMode()`. -/
theorem save_mode_pair_clears_net_mode (K : Consts) (s : Drv (Reg → Nat)) :
    (endSaveMode K memBus (beginSaveMode K memBus s)).dev Reg.NSR
        = (s.dev Reg.NSR % 65536 &&& not32 K.NSR_NET_MODE) % 65536 ∧
    (endSaveMode K memBus (beginSaveMode K memBus s)).dev Reg.NSR &&& K.NSR_NET_MODE = 0 ∧
    (∀ i, K.NSR_NET_MODE.testBit i = false →
      ((endSaveMode K memBus (beginSaveMode K memBus s)).dev Reg.NSR).testBit i
        = (s.dev Reg.NSR % 65536).testBit i) ∧
    ((endSaveMode K memBus (beginSaveMode K memBus s)).dev Reg.NSR &&& K.NSR_NET_MODE
        = s.dev Reg.NSR % 65536 &&& K.NSR_NET_MODE
      ↔ s.dev Reg.NSR % 65536 &&& K.NSR_NET_MODE = 0) := by
  have h1 : (endSaveMode K memBus (beginSaveMode K memBus s)).dev Reg.NSR
      = (s.dev Reg.NSR % 65536 &&& not32 K.NSR_NET_MODE) % 65536 := by
    simp only [endSaveMode, beginSaveMode, regRead16, regWrite16, memBus, if_true, Nat.mod_mod,
      reduceCtorEq, if_false]
  have h2 : (endSaveMode K memBus (beginSaveMode K memBus s)).dev Reg.NSR &&& K.NSR_NET_MODE
      = 0 := by
    rw [h1]; exact clear_read _ _
  refine ⟨h1, h2, ?_, ?_⟩
  · intro i hi
    rw [h1]; exact clear_bits_frame _ _ i hi
  · rw [h2]
    exact ⟨fun h => h.symm, fun h => h.symm⟩

/-- C3, the code at the failing input: with the Curie constants and NSR = 0x0010
(network-mode bit set) before `beginSaveMode()`, the network-mode bit is 0x0010
before the pair and 0 after it, where `endSaveMode` is meant to restore the
network to how it was found. -/
theorem save_mode_pair_loses_set_net_mode :
    (initMem (fun r => if r = Reg.NSR then 0x0010 else 0)).dev Reg.NSR
        &&& curie.NSR_NET_MODE = 0x0010 ∧
    (endSaveMode curie memBus (beginSaveMode curie memBus
        (initMem (fun r => if r = Reg.NSR then 0x0010 else 0)))).dev Reg.NSR
        &&& curie.NSR_NET_MODE = 0 := by
  decide

/-! ## The mode accessors -/

/-- C5: on the memory-like device, for every prior register state and every
16-bit `v`: `setGlobalContext(v)` then `getGlobalContext()` returns
`v & GCR_GLOBAL`; `setNeuronContext(v)` then `getNeuronContext()` returns
`v & NCR_CONTEXT`; for each distance mode `m`, `setDistanceMode(m)` then
`getDistanceMode()` returns `m`; for each classifier mode `m`,
`setClassifierMode(m)` then `getClassifierMode()` returns `m`; and repeating
any of the four set calls leaves every register as the first call left it.
The masks `GCR_DIST` and `NSR_CLASS_MODE` are non-zero 16-bit masks. -/
theorem accessors_read_after_write (K : Consts) (s : Drv (Reg → Nat)) (v : Nat)
    (hv : v < 65536) (hD : K.GCR_DIST % 65536 ≠ 0) (hC : K.NSR_CLASS_MODE % 65536 ≠ 0) :
    (getGlobalContext K memBus (setGlobalContext K memBus v s)).1 = v &&& K.GCR_GLOBAL ∧
    (getNeuronContext K memBus (setNeuronContext K memBus v s)).1 = v &&& K.NCR_CONTEXT ∧
    (∀ m, (getDistanceMode K memBus (setDistanceMode K memBus m s)).1 = m) ∧
    (∀ m, (getClassifierMode K memBus (setClassifierMode K memBus m s)).1 = m) ∧
    (setGlobalContext K memBus v (setGlobalContext K memBus v s)).dev
        = (setGlobalContext K memBus v s).dev ∧
    (setNeuronContext K memBus v (setNeuronContext K memBus v s)).dev
        = (setNeuronContext K memBus v s).dev ∧
    (∀ m, (setDistanceMode K memBus m (setDistanceMode K memBus m s)).dev
        = (setDistanceMode K memBus m s).dev) ∧
    (∀ m, (setClassifierMode K memBus m (setClassifierMode K memBus m s)).dev
        = (setClassifierMode K memBus m s).dev) := by
  refine ⟨?_, ?_, ?_, ?_, ?_, ?_, ?_, ?_⟩
  · simp only [getGlobalContext, setGlobalContext, regRead16, regWrite16, memBus, if_true,
      Nat.mod_mod]
    rw [context_read_back, and_mod16_of_lt _ hv]
  · simp only [getNeuronContext, setNeuronContext, regRead16, regWrite16, memBus, if_true,
      Nat.mod_mod]
    rw [context_read_back, and_mod16_of_lt _ hv]
  · intro m
    cases m
    · simp only [getDistanceMode, setDistanceMode, regRead16, regWrite16, memBus, if_true,
        Nat.mod_mod, reduceCtorEq, if_false, clear_bits_read]
      simp
    · simp only [getDistanceMode, setDistanceMode, regRead16, regWrite16, memBus, if_true,
        Nat.mod_mod, set_bits_read]
      simp [hD]
  · intro m
    cases m
    · simp only [getClassifierMode, setClassifierMode, regRead16, regWrite16, memBus, if_true,
        Nat.mod_mod, reduceCtorEq, if_false, clear_read]
      simp
    · simp only [getClassifierMode, setClassifierMode, regRead16, regWrite16, memBus, if_true,
        Nat.mod_mod, clear_set_read]
      simp [hC]
  · simp only [setGlobalContext, regRead16, regWrite16, memBus, if_true, Nat.mod_mod]
    funext q
    by_cases hq : q = Reg.GCR
    · simp only [hq, if_true, context_write_twice]
    · simp only [hq, if_false]
  · simp only [setNeuronContext, regRead16, regWrite16, memBus, if_true, Nat.mod_mod]
    funext q
    by_cases hq : q = Reg.NCR
    · simp only [hq, if_true, context_write_twice]
    · simp only [hq, if_false]
  · intro m
    cases m
    · simp only [setDistanceMode, regRead16, regWrite16, memBus, if_true, Nat.mod_mod,
        reduceCtorEq, if_false]
      funext q
      by_cases hq : q = Reg.GCR
      · simp only [hq, if_true, clear_bits_twice]
      · simp only [hq, if_false]
    · simp only [setDistanceMode, regRead16, regWrite16, memBus, if_true, Nat.mod_mod]
      funext q
      by_cases hq : q = Reg.GCR
      · simp only [hq, if_true, set_bits_twice]
      · simp only [hq, if_false]
  · intro m
    cases m
    · simp only [setClassifierMode, regRead16, regWrite16, memBus, if_true, Nat.mod_mod,
        reduceCtorEq, if_false]
      funext q
      by_cases hq : q = Reg.NSR
      · simp only [hq, if_true, clear_bits_twice]
      · simp only [hq, if_false]
    · simp only [setClassifierMode, regRead16, regWrite16, memBus, if_true, Nat.mod_mod]
      funext q
      by_cases hq : q = Reg.NSR
      · simp only [hq, if_true, clear_set_twice]
      · simp only [hq, if_false]

/-- C5, witness: the Curie constants, registers GCR = 0xFFFF, NSR = 0xFFFF and
all others 0, and `v = 0x1234`. -/
theorem accessors_read_after_write_witness :
    ((0x1234 : Nat) < 65536 ∧ curie.GCR_DIST % 65536 ≠ 0 ∧ curie.NSR_CLASS_MODE % 65536 ≠ 0) ∧
    (getGlobalContext curie memBus (setGlobalContext curie memBus 0x1234
      (initMem (fun r => if r = Reg.GCR ∨ r = Reg.NSR then 0xFFFF else 0)))).1
        = 0x1234 &&& curie.GCR_GLOBAL ∧
    (∀ m, (getDistanceMode curie memBus (setDistanceMode curie memBus m
      (initMem (fun r => if r = Reg.GCR ∨ r = Reg.NSR then 0xFFFF else 0)))).1 = m) :=
  ⟨⟨by decide, by decide, by decide⟩,
   (accessors_read_after_write curie
      (initMem (fun r => if r = Reg.GCR ∨ r = Reg.NSR then 0xFFFF else 0)) 0x1234
      (by decide) (by decide) (by decide)).1,
   (accessors_read_after_write curie
      (initMem (fun r => if r = Reg.GCR ∨ r = Reg.NSR then 0xFFFF else 0)) 0x1234
      (by decide) (by decide) (by decide)).2.2.1⟩

/-- C8: over any device, each mode setter is one read of its register followed
by one write to the same register and no other transaction (`nsr_save` and the
buffer log are untouched), and the value written agrees with the value just
read on every bit outside the setter's mask: `GCR_DIST` for `setDistanceMode`,
`GCR_GLOBAL` for `setGlobalContext`, `NCR_CONTEXT` for `setNeuronContext`,
`NSR_CLASS_MODE` for `setClassifierMode`. -/
theorem setters_preserve_other_bits {σ : Type} (K : Consts) (bus : Bus σ) (s : Drv σ)
    (dmode : PATTERN_MATCHING_DISTANCE_MODE) (cmode : PATTERN_MATCHING_CLASSIFICATION_MODE)
    (context : Nat) :
    (∃ w, setDistanceMode K bus dmode s = readThenWrite bus Reg.GCR w s ∧
      ∀ i, K.GCR_DIST.testBit i = false →
        w.testBit i = ((bus.read Reg.GCR s.dev).1 % 65536).testBit i) ∧
    (∃ w, setGlobalContext K bus context s = readThenWrite bus Reg.GCR w s ∧
      ∀ i, K.GCR_GLOBAL.testBit i = false →
        w.testBit i = ((bus.read Reg.GCR s.dev).1 % 65536).testBit i) ∧
    (∃ w, setNeuronContext K bus context s = readThenWrite bus Reg.NCR w s ∧
      ∀ i, K.NCR_CONTEXT.testBit i = false →
        w.testBit i = ((bus.read Reg.NCR s.dev).1 % 65536).testBit i) ∧
    (∃ w, setClassifierMode K bus cmode s = readThenWrite bus Reg.NSR w s ∧
      ∀ i, K.NSR_CLASS_MODE.testBit i = false →
        w.testBit i = ((bus.read Reg.NSR s.dev).1 % 65536).testBit i) := by
  have hl : ∀ (l : List Event) (a b : Event), l ++ [a] ++ [b] = l ++ [a, b] := by
    intro l a b; simp
  refine ⟨?_, ?_, ?_, ?_⟩
  · cases dmode
    · exact ⟨((bus.read Reg.GCR s.dev).1 % 65536 &&& not32 K.GCR_DIST) % 65536,
        by simp only [setDistanceMode, regRead16, regWrite16, readThenWrite, reduceCtorEq,
          if_false, Nat.mod_mod, hl],
        fun i hi => clear_bits_frame _ _ i hi⟩
    · exact ⟨((bus.read Reg.GCR s.dev).1 % 65536 ||| K.GCR_DIST) % 65536,
        by simp only [setDistanceMode, regRead16, regWrite16, readThenWrite, if_true,
          Nat.mod_mod, hl],
        fun i hi => set_bits_frame _ _ i hi⟩
  · exact ⟨((not32 K.GCR_GLOBAL &&& (bus.read Reg.GCR s.dev).1 % 65536) % 65536
        ||| context &&& K.GCR_GLOBAL) % 65536,
      by simp only [setGlobalContext, regRead16, regWrite16, readThenWrite, Nat.mod_mod, hl],
      fun i hi => context_write_frame _ _ _ i hi⟩
  · exact ⟨((not32 K.NCR_CONTEXT &&& (bus.read Reg.NCR s.dev).1 % 65536) % 65536
        ||| context &&& K.NCR_CONTEXT) % 65536,
      by simp only [setNeuronContext, regRead16, regWrite16, readThenWrite, Nat.mod_mod, hl],
      fun i hi => context_write_frame _ _ _ i hi⟩
  · cases cmode
    · exact ⟨((bus.read Reg.NSR s.dev).1 % 65536 &&& not32 K.NSR_CLASS_MODE) % 65536,
        by simp only [setClassifierMode, regRead16, regWrite16, readThenWrite, reduceCtorEq,
          if_false, Nat.mod_mod, hl],
        fun i hi => clear_bits_frame _ _ i hi⟩
    · exact ⟨(((bus.read Reg.NSR s.dev).1 % 65536 &&& not32 K.NSR_CLASS_MODE) % 65536
          ||| K.NSR_CLASS_MODE) % 65536,
        by simp only [setClassifierMode, regRead16, regWrite16, readThenWrite, if_true,
          Nat.mod_mod, hl],
        fun i hi => clear_set_frame _ _ i hi⟩

/-! ## configure -/

/-- C9: `configure` never clears a set bit of NSR.  Over any device its
transactions are: the GCR write, a read of NSR returning some `n`, the write
to NSR of `n | (classification_mode << 5)` truncated to 16 bits, and the MINIF
and MAXIF writes; every bit set in `n` is set in the value written, and the
value written is exactly `n | (classification_mode << 5)` when the
enumerator's code is below 2048.  On the memory-like device, from every state
in which NSR's `NSR_CLASS_MODE` field is non-zero, `configure(g, d, RBF_Mode,
a, b)` leaves it non-zero and a following `getClassifierMode()` returns
`KNN_Mode`. -/
theorem configure_never_clears_nsr {σ : Type} (K : Consts) (bus : Bus σ) (s : Drv σ)
    (t : Drv (Reg → Nat)) (global_context : Nat)
    (distance_mode : PATTERN_MATCHING_DISTANCE_MODE)
    (classification_mode : PATTERN_MATCHING_CLASSIFICATION_MODE) (minAIF maxAIF : Nat) :
    (∃ n w, (configure K bus global_context distance_mode classification_mode
          minAIF maxAIF s).trace
        = s.trace ++
          [Event.wr Reg.GCR ((global_context ||| distanceCode K distance_mode <<< 7) % 65536),
           Event.rd Reg.NSR n, Event.wr Reg.NSR w,
           Event.wr Reg.MINIF (minAIF % 65536), Event.wr Reg.MAXIF (maxAIF % 65536)] ∧
      w = (n ||| classificationCode K classification_mode <<< 5) % 65536 ∧
      (∀ i, n.testBit i = true → w.testBit i = true) ∧
      (classificationCode K classification_mode < 2048 →
        w = n ||| classificationCode K classification_mode <<< 5)) ∧
    (t.dev Reg.NSR % 65536 &&& K.NSR_CLASS_MODE ≠ 0 →
      (configure K memBus global_context distance_mode
          PATTERN_MATCHING_CLASSIFICATION_MODE.RBF_Mode minAIF maxAIF t).dev Reg.NSR
        &&& K.NSR_CLASS_MODE ≠ 0 ∧
      (getClassifierMode K memBus (configure K memBus global_context distance_mode
          PATTERN_MATCHING_CLASSIFICATION_MODE.RBF_Mode minAIF maxAIF t)).1
        = PATTERN_MATCHING_CLASSIFICATION_MODE.KNN_Mode) := by
  constructor
  · refine ⟨(bus.read Reg.NSR (bus.write Reg.GCR
        ((global_context ||| distanceCode K distance_mode <<< 7) % 65536) s.dev)).1 % 65536,
      _, ?_, rfl, ?_, ?_⟩
    · simp only [configure, regRead16, regWrite16, List.append_assoc, List.singleton_append,
        List.cons_append, List.nil_append]
    · intro i hi
      exact or_keeps_bits _ _ i hi
    · intro hc
      exact or_shift_fits _ _ (Nat.mod_lt _ (by decide)) hc
  · intro h
    have hdev : (configure K memBus global_context distance_mode
        PATTERN_MATCHING_CLASSIFICATION_MODE.RBF_Mode minAIF maxAIF t).dev Reg.NSR
        = (t.dev Reg.NSR % 65536
            ||| classificationCode K PATTERN_MATCHING_CLASSIFICATION_MODE.RBF_Mode <<< 5)
          % 65536 := by
      simp only [configure, regRead16, regWrite16, memBus, if_true, Nat.mod_mod, reduceCtorEq,
        if_false]
    have hne := or_mask_ne_zero (t.dev Reg.NSR)
      (classificationCode K PATTERN_MATCHING_CLASSIFICATION_MODE.RBF_Mode <<< 5)
      K.NSR_CLASS_MODE h
    refine ⟨by rw [hdev]; exact hne, ?_⟩
    have hget : ∀ u : Drv (Reg → Nat), (getClassifierMode K memBus u).1
        = if u.dev Reg.NSR % 65536 &&& K.NSR_CLASS_MODE ≠ 0
          then PATTERN_MATCHING_CLASSIFICATION_MODE.KNN_Mode
          else PATTERN_MATCHING_CLASSIFICATION_MODE.RBF_Mode := fun _ => rfl
    rw [hget, hdev, Nat.mod_mod, if_pos hne]

/-- C9, witness: the Curie constants and NSR = 0x0020 (KNN selected): after
`configure(1, L1_Distance, RBF_Mode, 2, 3)` the classifier mode still reads
`KNN_Mode`. -/
theorem configure_never_clears_nsr_witness :
    (initMem (fun r => if r = Reg.NSR then 0x0020 else 0)).dev Reg.NSR % 65536
        &&& curie.NSR_CLASS_MODE ≠ 0 ∧
    (getClassifierMode curie memBus (configure curie memBus 1
        PATTERN_MATCHING_DISTANCE_MODE.L1_Distance
        PATTERN_MATCHING_CLASSIFICATION_MODE.RBF_Mode 2 3
        (initMem (fun r => if r = Reg.NSR then 0x0020 else 0)))).1
      = PATTERN_MATCHING_CLASSIFICATION_MODE.KNN_Mode :=
  ⟨by decide,
   ((configure_never_clears_nsr curie memBus (initMem (fun _ => 0))
      (initMem (fun r => if r = Reg.NSR then 0x0020 else 0)) 1
      PATTERN_MATCHING_DISTANCE_MODE.L1_Distance
      PATTERN_MATCHING_CLASSIFICATION_MODE.RBF_Mode 2 3).2 (by decide)).2⟩

/-! ## learn followed by classify on the memory-like device -/

theorem compStep_mem_dev (pattern_vector : Pattern) (i : Int) (s : Drv (Reg → Nat))
    (r : Reg) (hr : r ≠ Reg.COMP) :
    (compStep memBus pattern_vector i s).dev r = s.dev r := by
  simp only [compStep, regWrite16, loadAt, memBus, hr, if_false]

theorem forInt_comp_mem_dev (pattern_vector : Pattern) (n : Nat) (s : Drv (Reg → Nat))
    (r : Reg) (hr : r ≠ Reg.COMP) :
    (forInt (n : Int) (compStep memBus pattern_vector) s).dev r = s.dev r := by
  induction n with
  | zero => simp [forInt]
  | succ k ih =>
    have h := forInt_succ k (compStep memBus pattern_vector) s
    rw [Nat.cast_succ, h, compStep_mem_dev _ _ _ r hr, ih]

/-- After `learn` on the memory-like device, CAT holds the category field
inserted into some prior 16-bit value. -/
theorem learn_mem_cat (K : Consts) (pattern_vector : Pattern) (vector_length : Int)
    (category : Nat) (s : Drv (Reg → Nat)) :
    ∃ c, (learn K memBus pattern_vector vector_length category s).2.dev Reg.CAT
      = (c &&& not32 K.CAT_CATEGORY ||| category &&& K.CAT_CATEGORY) % 65536 := by
  refine ⟨?c, ?_⟩
  case c => exact (regRead16 memBus Reg.CAT (regWrite16 memBus Reg.LCOMP
    (loadAt pattern_vector (((if vector_length > K.maxVectorSize then K.maxVectorSize
      else vector_length) - 1)) (forInt (((if vector_length > K.maxVectorSize
      then K.maxVectorSize else vector_length) - 1)) (compStep memBus pattern_vector) s)).1
    (loadAt pattern_vector (((if vector_length > K.maxVectorSize then K.maxVectorSize
      else vector_length) - 1)) (forInt (((if vector_length > K.maxVectorSize
      then K.maxVectorSize else vector_length) - 1)) (compStep memBus pattern_vector) s)).2)).1
  simp only [learn, regRead16, regWrite16, memBus, if_true]

/-- C4 (as amended): on the memory-like device, for every pattern vector, every
`vector_length` with `1 <= vector_length <= maxVectorSize` (and
`maxVectorSize <= 256`) and every 16-bit category `X`, `learn(vector,
vector_length, X)` followed immediately by `classify(vector, vector_length)`
returns `X & CAT_CATEGORY`. -/
theorem learn_then_classify_returns_category (K : Consts) (pattern_vector : Pattern)
    (vector_length : Int) (category : Nat) (s : Drv (Reg → Nat)) (fuel : Nat)
    (h1 : 1 ≤ vector_length) (h2 : vector_length ≤ K.maxVectorSize)
    (hK : K.maxVectorSize ≤ 256) (hX : category < 65536) (hf : 256 ≤ fuel) :
    (classify K memBus pattern_vector vector_length fuel
        (learn K memBus pattern_vector vector_length category s).2).map Prod.fst
      = some (category &&& K.CAT_CATEGORY) := by
  obtain ⟨c, hc⟩ := learn_mem_cat K pattern_vector vector_length category s
  have hb : vector_length - 1 = vector_length - 1 :=
    rfl
  rw [classify_of_le K memBus pattern_vector vector_length fuel _ (by omega)
    (vector_length - 1) hb (by omega) (by omega)]
  have hcat : ∀ u : Drv (Reg → Nat), (regRead16 memBus Reg.CAT
      (regWrite16 memBus Reg.LCOMP (byteAt pattern_vector (vector_length - 1))
        (loadAt pattern_vector (vector_length - 1) u).2)).1 = u.dev Reg.CAT % 65536 := by
    intro u
    simp only [regRead16, regWrite16, loadAt, memBus, reduceCtorEq, if_false]
  simp only [Option.map_some', hcat]
  rw [forInt_toNat, forInt_comp_mem_dev _ _ _ Reg.CAT (by decide), hc, Nat.mod_mod,
    field_read_back, and_mod16_of_lt _ hX]

/-- C4, witness: the Curie constants, a 3-byte buffer, category 0x8005 (bit 15
set): `classify` after `learn` returns 5. -/
theorem learn_then_classify_returns_category_witness :
    ((1 : Int) ≤ 3 ∧ (3 : Int) ≤ curie.maxVectorSize ∧ curie.maxVectorSize ≤ 256 ∧
      (0x8005 : Nat) < 65536 ∧ 256 ≤ 256) ∧
    (classify curie memBus shortPattern 3 256
        (learn curie memBus shortPattern 3 0x8005 (initMem (fun _ => 0))).2).map Prod.fst
      = some (0x8005 &&& curie.CAT_CATEGORY) :=
  ⟨⟨by decide, by decide, by decide, by decide, by decide⟩,
   learn_then_classify_returns_category curie shortPattern 3 0x8005 (initMem (fun _ => 0)) 256
     (by decide) (by decide) (by decide) (by decide) (by decide)⟩

/-- C4, counterexample to the claim as stated: with the Curie constants and
`vector_length = 129 >= 1`, `learn(vector, 129, 1)` followed by
`classify(vector, 129)` returns 0xFFFF, which is not `1 & CAT_CATEGORY = 1`. -/
theorem learn_then_classify_over_length :
    (1 : Int) ≤ 129 ∧
    (classify curie memBus shortPattern 129 256
        (learn curie memBus shortPattern 129 1 (initMem (fun _ => 0))).2).map Prod.fst
      = some 0xFFFF ∧
    (1 &&& curie.CAT_CATEGORY) = 1 := by
  refine ⟨by decide, ?_, by decide⟩
  rw [classify_over curie memBus shortPattern 129 256 _ (by decide)]
  rfl

/-! ## iterateNeuronsToSave and iterateNeuronsToRestore -/

section SaveRestore
variable {σ : Type} (K : Consts) (bus : Bus σ)

theorem set_past_filled (pre orig : List Nat) (k x : Nat) (hpre : pre.length = k)
    (hk : k < orig.length) :
    (pre ++ orig.drop k).set k x = pre ++ [x] ++ orig.drop (k + 1) := by
  subst hpre
  rw [List.set_append_right _ _ (Nat.le_refl _), List.drop_eq_getElem_cons hk, Nat.sub_self,
    List.set_cons_zero, List.append_assoc, List.singleton_append]

/-- The loop of `iterateNeuronsToSave` after `n` iterations: `n` reads of COMP,
whose values (converted to the element type) fill the first `n` components. -/
theorem forInt_save (array : neuronData) (s : Drv σ) (n : Nat)
    (hn : n ≤ array.vector.length) :
    ∃ comps : List Nat, comps.length = n ∧
      (forInt (n : Int) (saveStep K bus) (array, s)).2.trace
        = s.trace ++ comps.map (Event.rd Reg.COMP) ∧
      (forInt (n : Int) (saveStep K bus) (array, s)).2.nsr_save = s.nsr_save ∧
      (forInt (n : Int) (saveStep K bus) (array, s)).2.loads = s.loads ∧
      (forInt (n : Int) (saveStep K bus) (array, s)).1
        = { array with
            vector := comps.map (fun v => v % K.vectorElemMod) ++ array.vector.drop n } := by
  induction n with
  | zero => exact ⟨[], rfl, by simp [forInt], by simp [forInt], by simp [forInt],
      by simp [forInt]⟩
  | succ k ih =>
    obtain ⟨comps, hlen, htr, hsave, hloads, hrec⟩ := ih (by omega)
    have h := forInt_succ k (saveStep K bus) (array, s)
    rw [Nat.cast_succ, h]
    refine ⟨comps ++ [(bus.read Reg.COMP
      (forInt (k : Int) (saveStep K bus) (array, s)).2.dev).1 % 65536], by simp [hlen],
      ?_, ?_, ?_, ?_⟩
    · simp only [saveStep, regRead16, htr, List.map_append, List.map_cons, List.map_nil,
        List.append_assoc]
    · simp only [saveStep, regRead16, hsave]
    · simp only [saveStep, regRead16, hloads]
    · have hk : k < array.vector.length := by omega
      simp only [saveStep, regRead16, hrec, Int.toNat_ofNat]
      rw [set_past_filled _ _ k _ (by simp [hlen]) hk]
      simp only [List.map_append, List.map_cons, List.map_nil]

/-- The transactions and the result of `iterateNeuronsToSave` over any device. -/
theorem iterateNeuronsToSave_spec (array : neuronData) (s : Drv σ)
    (hlen : array.vector.length = K.saveRestoreSize.toNat) :
    ∃ ctx comps aif minif cat, comps.length = K.saveRestoreSize.toNat ∧
      (iterateNeuronsToSave K bus array s).2.2.trace
        = s.trace ++ saveReads ctx comps aif minif cat ∧
      (iterateNeuronsToSave K bus array s).2.2.nsr_save = s.nsr_save ∧
      (iterateNeuronsToSave K bus array s).2.1
        = { context := ctx, influence := aif, minInfluence := minif, category := cat,
            vector := comps.map (fun v => v % K.vectorElemMod) } ∧
      (iterateNeuronsToSave K bus array s).1 = cat := by
  obtain ⟨comps, hcl, htr, hsave, _, hrec⟩ :=
    forInt_save K bus { array with context := (regRead16 bus Reg.NCR s).1 }
      (regRead16 bus Reg.NCR s).2 K.saveRestoreSize.toNat (by simp [hlen])
  rw [← forInt_toNat] at htr hsave hrec
  refine ⟨(regRead16 bus Reg.NCR s).1, comps,
    (iterateNeuronsToSave K bus array s).2.1.influence,
    (iterateNeuronsToSave K bus array s).2.1.minInfluence,
    (iterateNeuronsToSave K bus array s).1, hcl, ?_, ?_, ?_, rfl⟩
  · simp only [iterateNeuronsToSave, regRead16, saveReads] at htr ⊢
    simp only [htr, List.append_assoc, List.singleton_append, List.cons_append,
      List.nil_append]
  · simp only [iterateNeuronsToSave, regRead16] at hsave ⊢
    exact hsave
  · simp only [iterateNeuronsToSave, hrec]
    simp [hlen]

theorem restoreStep_trace (array : neuronData) (i : Int) (s : Drv σ) :
    (restoreStep bus array i s).trace
      = s.trace ++ [Event.wr Reg.COMP (array.vector.getD i.toNat 0 % 65536)] := by
  simp only [restoreStep, regWrite16]

theorem forInt_restore_trace (array : neuronData) (n : Nat) (s : Drv σ) :
    (forInt (n : Int) (restoreStep bus array) s).trace
      = s.trace ++ (List.range n).map
          (fun i => Event.wr Reg.COMP (array.vector.getD i 0 % 65536)) := by
  induction n with
  | zero => simp [forInt]
  | succ k ih =>
    have h := forInt_succ k (restoreStep bus array) s
    rw [Nat.cast_succ, h, restoreStep_trace, ih]
    simp [List.range_succ]

theorem map_range_getD (l : List Nat) (f : Nat → Event) :
    (List.range l.length).map (fun i => f (l.getD i 0)) = l.map f := by
  apply List.ext_getElem
  · simp
  · intro i h1 h2
    simp at h1
    simp [List.getElem?_eq_getElem h1]

/-- The transactions of `iterateNeuronsToRestore` for a well-formed record. -/
theorem iterateNeuronsToRestore_trace (r : neuronData) (s : Drv σ) (hr : r.WF K)
    (hmod : K.vectorElemMod ≤ 65536) :
    (iterateNeuronsToRestore K bus r s).2.trace = s.trace ++ restoreWrites r := by
  obtain ⟨h1, h2, h3, h4, h5, h6⟩ := hr
  have hv : r.vector.map (fun v => Event.wr Reg.COMP (v % 65536))
      = r.vector.map (Event.wr Reg.COMP) := by
    apply List.map_congr_left
    intro v hv
    rw [Nat.mod_eq_of_lt (Nat.lt_of_lt_of_le (h6 v hv) hmod)]
  simp only [iterateNeuronsToRestore, regWrite16, restoreWrites]
  rw [forInt_toNat, forInt_restore_trace, ← h5,
    map_range_getD r.vector (fun v => Event.wr Reg.COMP (v % 65536)), hv,
    Nat.mod_eq_of_lt h1, Nat.mod_eq_of_lt h2, Nat.mod_eq_of_lt h3, Nat.mod_eq_of_lt h4]
  simp only [List.append_assoc, List.singleton_append, List.cons_append, List.nil_append]

end SaveRestore

theorem asRead_restoreWrites (r : neuronData) :
    (restoreWrites r).map asRead
      = saveReads r.context r.vector r.influence r.minInfluence r.category := by
  simp [restoreWrites, saveReads, asRead, List.map_map, Function.comp_def]

theorem map_rd_injective (reg : Reg) {l₁ l₂ : List Nat}
    (h : l₁.map (Event.rd reg) = l₂.map (Event.rd reg)) : l₁ = l₂ := by
  refine List.map_injective_iff.mpr ?_ h
  intro a b hab
  cases hab
  rfl

/-- Two read sequences of `iterateNeuronsToSave` with equally many COMP reads
are equal only if all their values are. -/
theorem saveReads_inj {c₁ c₂ : Nat} {v₁ v₂ : List Nat} {a₁ a₂ m₁ m₂ k₁ k₂ : Nat}
    (hlen : v₁.length = v₂.length)
    (h : saveReads c₁ v₁ a₁ m₁ k₁ = saveReads c₂ v₂ a₂ m₂ k₂) :
    c₁ = c₂ ∧ v₁ = v₂ ∧ a₁ = a₂ ∧ m₁ = m₂ ∧ k₁ = k₂ := by
  simp only [saveReads, List.singleton_append, List.cons_append, List.cons.injEq,
    Event.rd.injEq, true_and] at h
  obtain ⟨hc, hrest⟩ := h
  have hl : (v₁.map (Event.rd Reg.COMP)).length = (v₂.map (Event.rd Reg.COMP)).length := by
    simp [hlen]
  obtain ⟨hv, htail⟩ := List.append_inj hrest hl
  simp only [List.cons.injEq, Event.rd.injEq, true_and, and_true] at htail
  exact ⟨hc, map_rd_injective Reg.COMP hv, htail.1, htail.2.1, htail.2.2⟩

/-- C7: save/restore round trip at the register-transport level.  For every
well-formed record `r` (16-bit fields, `saveRestoreSize` vector components of
the element type, which is at most 16 bits wide) and any device,
`iterateNeuronsToRestore(r)` returns 0 and its transactions are, in order, the
writes of `r.context` to NCR, of `r.vector[0 .. saveRestoreSize-1]` to COMP, of
`r.influence` to AIF, of `r.minInfluence` to MINIF and of `r.category` to CAT.
`iterateNeuronsToSave(out)` over any device issues reads of NCR, COMP
(`saveRestoreSize` times), AIF, MINIF, CAT in that order; and whenever those
reads return the values the restore wrote, `out` equals `r` in every field and
the call returns `r.category`. -/
theorem save_restore_round_trip {σ τ : Type} (K : Consts) (bus : Bus σ) (bus' : Bus τ)
    (r out : neuronData) (s : Drv σ) (t : Drv τ)
    (hr : r.WF K) (hmod : K.vectorElemMod ≤ 65536)
    (hout : out.vector.length = K.saveRestoreSize.toNat) :
    (iterateNeuronsToRestore K bus r s).1 = 0 ∧
    (iterateNeuronsToRestore K bus r s).2.trace = s.trace ++ restoreWrites r ∧
    (∃ ctx comps aif minif cat, comps.length = K.saveRestoreSize.toNat ∧
      (iterateNeuronsToSave K bus' out t).2.2.trace
        = t.trace ++ saveReads ctx comps aif minif cat) ∧
    ((iterateNeuronsToSave K bus' out t).2.2.trace
        = t.trace ++ (restoreWrites r).map asRead →
      (iterateNeuronsToSave K bus' out t).2.1 = r ∧
      (iterateNeuronsToSave K bus' out t).1 = r.category) := by
  obtain ⟨ctx, comps, aif, minif, cat, hcl, htr, _, hrec, hret⟩ :=
    iterateNeuronsToSave_spec K bus' out t hout
  refine ⟨rfl, iterateNeuronsToRestore_trace K bus r s hr hmod,
    ⟨ctx, comps, aif, minif, cat, hcl, htr⟩, ?_⟩
  intro h
  rw [htr, asRead_restoreWrites] at h
  have h' := List.append_cancel_left h
  obtain ⟨-, -, -, -, h5, h6⟩ := hr
  obtain ⟨e1, e2, e3, e4, e5⟩ := saveReads_inj (by rw [hcl, h5]) h'
  subst e1 e2 e3 e4 e5
  refine ⟨?_, hret⟩
  rw [hrec]
  have hv : r.vector.map (fun v => v % K.vectorElemMod) = r.vector := by
    conv_rhs => rw [← List.map_id r.vector]
    apply List.map_congr_left
    intro v hv
    exact Nat.mod_eq_of_lt (h6 v hv)
  rw [hv]

set_option maxRecDepth 100000 in
/-- C7, witness: the Curie constants and the replaying device: the sample
record is restored, then saved into a blank record, which comes out equal to
the sample record. -/
theorem save_restore_round_trip_witness :
    (sampleRecord.WF curie ∧ curie.vectorElemMod ≤ 65536 ∧
      blankRecord.vector.length = curie.saveRestoreSize.toNat ∧
      (iterateNeuronsToSave curie fifoBus blankRecord
          (iterateNeuronsToRestore curie fifoBus sampleRecord fifoStart).2).2.2.trace
        = (iterateNeuronsToRestore curie fifoBus sampleRecord fifoStart).2.trace
          ++ (restoreWrites sampleRecord).map asRead) ∧
    (iterateNeuronsToSave curie fifoBus blankRecord
        (iterateNeuronsToRestore curie fifoBus sampleRecord fifoStart).2).2.1 = sampleRecord ∧
    (iterateNeuronsToSave curie fifoBus blankRecord
        (iterateNeuronsToRestore curie fifoBus sampleRecord fifoStart).2).1
      = sampleRecord.category :=
  ⟨⟨by decide, by decide, by decide, by decide⟩,
   (save_restore_round_trip curie fifoBus fifoBus sampleRecord blankRecord fifoStart
      (iterateNeuronsToRestore curie fifoBus sampleRecord fifoStart).2
      (by decide) (by decide) (by decide)).2.2.2 (by decide)⟩

/-! ## readNeuron -/

section ReadNeuron
variable {σ : Type} (K : Consts) (bus : Bus σ)

theorem clampNeuronID_eq (neuronID : Int) (h : K.firstNeuronID ≤ K.lastNeuronID) :
    clampNeuronID K neuronID = max K.firstNeuronID (min neuronID K.lastNeuronID) := by
  simp only [clampNeuronID, max_def, min_def]
  split_ifs <;> omega

theorem clampNeuronID_range (neuronID : Int) (h : K.firstNeuronID ≤ K.lastNeuronID) :
    K.firstNeuronID ≤ clampNeuronID K neuronID ∧ clampNeuronID K neuronID ≤ K.lastNeuronID := by
  simp only [clampNeuronID]
  split_ifs <;> omega

theorem clampNeuronID_idem (neuronID : Int) (h : K.firstNeuronID ≤ K.lastNeuronID) :
    clampNeuronID K (clampNeuronID K neuronID) = clampNeuronID K neuronID := by
  simp only [clampNeuronID]
  split_ifs <;> omega

/-- The chain-advance loop: `n` reads of CAT and nothing else. -/
theorem forInt_advance (n : Nat) (s : Drv σ) :
    ∃ cats : List Nat, cats.length = n ∧
      (forInt (n : Int) (advanceStep bus) s).trace = s.trace ++ cats.map (Event.rd Reg.CAT) ∧
      (forInt (n : Int) (advanceStep bus) s).nsr_save = s.nsr_save := by
  induction n with
  | zero => exact ⟨[], rfl, by simp [forInt], by simp [forInt]⟩
  | succ k ih =>
    obtain ⟨cats, hlen, htr, hsave⟩ := ih
    have h := forInt_succ k (advanceStep bus) s
    rw [Nat.cast_succ, h]
    refine ⟨cats ++ [(bus.read Reg.CAT (forInt (k : Int) (advanceStep bus) s).dev).1 % 65536],
      by simp [hlen], ?_, ?_⟩
    · simp only [advanceStep, regRead16, htr, List.map_append, List.map_cons, List.map_nil,
        List.append_assoc]
    · simp only [advanceStep, regRead16, hsave]

/-- The reads of the loop of `iterateNeuronsToSave`, whatever the record. -/
theorem forInt_save_trace (array : neuronData) (s : Drv σ) (n : Nat) :
    ∃ comps : List Nat, comps.length = n ∧
      (forInt (n : Int) (saveStep K bus) (array, s)).2.trace
        = s.trace ++ comps.map (Event.rd Reg.COMP) ∧
      (forInt (n : Int) (saveStep K bus) (array, s)).2.nsr_save = s.nsr_save := by
  induction n with
  | zero => exact ⟨[], rfl, by simp [forInt], by simp [forInt]⟩
  | succ k ih =>
    obtain ⟨comps, hlen, htr, hsave⟩ := ih
    have h := forInt_succ k (saveStep K bus) (array, s)
    rw [Nat.cast_succ, h]
    refine ⟨comps ++ [(bus.read Reg.COMP
      (forInt (k : Int) (saveStep K bus) (array, s)).2.dev).1 % 65536], by simp [hlen], ?_, ?_⟩
    · simp only [saveStep, regRead16, htr, List.map_append, List.map_cons, List.map_nil,
        List.append_assoc]
    · simp only [saveStep, regRead16, hsave]

/-- The transactions of `iterateNeuronsToSave` over any device, for any record. -/
theorem iterateNeuronsToSave_trace (array : neuronData) (s : Drv σ) :
    ∃ ctx comps aif minif cat, comps.length = K.saveRestoreSize.toNat ∧
      (iterateNeuronsToSave K bus array s).2.2.trace
        = s.trace ++ saveReads ctx comps aif minif cat ∧
      (iterateNeuronsToSave K bus array s).2.2.nsr_save = s.nsr_save := by
  obtain ⟨comps, hcl, htr, hsave⟩ :=
    forInt_save_trace K bus { array with context := (regRead16 bus Reg.NCR s).1 }
      (regRead16 bus Reg.NCR s).2 K.saveRestoreSize.toNat
  rw [← forInt_toNat] at htr hsave
  refine ⟨(regRead16 bus Reg.NCR s).1, comps,
    (iterateNeuronsToSave K bus array s).2.1.influence,
    (iterateNeuronsToSave K bus array s).2.1.minInfluence,
    (iterateNeuronsToSave K bus array s).1, hcl, ?_, ?_⟩
  · simp only [iterateNeuronsToSave, regRead16, saveReads] at htr ⊢
    simp only [htr, List.append_assoc, List.singleton_append, List.cons_append,
      List.nil_append]
  · simp only [iterateNeuronsToSave, regRead16] at hsave ⊢
    exact hsave

theorem beginSaveMode_trace (s : Drv σ) :
    ∃ a b, (beginSaveMode K bus s).trace
        = s.trace ++ [Event.rd Reg.NSR a, Event.rd Reg.NSR b,
            Event.wr Reg.NSR ((b ||| K.NSR_NET_MODE) % 65536), Event.wr Reg.RSTCHAIN 0] ∧
      (beginSaveMode K bus s).nsr_save = a :=
  ⟨(bus.read Reg.NSR s.dev).1 % 65536,
   (bus.read Reg.NSR (bus.read Reg.NSR s.dev).2).1 % 65536,
   by simp only [beginSaveMode, regRead16, regWrite16, List.append_assoc, List.singleton_append,
        List.cons_append, List.nil_append, Nat.zero_mod],
   rfl⟩

end ReadNeuron

/-- C6: for every `neuronID`, device, record and driver state, with
`firstNeuronID <= lastNeuronID`: with
`c = max(firstNeuronID, min(neuronID, lastNeuronID))`, which lies in
`[firstNeuronID, lastNeuronID]`, `readNeuron(neuronID, out)` is
`readNeuron(c, out)` (same result, same device, same transaction log); it
returns 0; and its transactions are, in order, those of `beginSaveMode` (two
reads of NSR, the NSR write, the RSTCHAIN write), exactly `c - 1` reads of
CAT, the reads of `iterateNeuronsToSave` (NCR, COMP `saveRestoreSize` times,
AIF, MINIF, CAT) and the NSR write of `endSaveMode`. -/
theorem readNeuron_clamps_before_advancing {σ : Type} (K : Consts) (bus : Bus σ)
    (neuronID : Int) (data_array : neuronData) (s : Drv σ)
    (h2 : K.firstNeuronID ≤ K.lastNeuronID) :
    K.firstNeuronID ≤ max K.firstNeuronID (min neuronID K.lastNeuronID) ∧
    max K.firstNeuronID (min neuronID K.lastNeuronID) ≤ K.lastNeuronID ∧
    readNeuron K bus neuronID data_array s
      = readNeuron K bus (max K.firstNeuronID (min neuronID K.lastNeuronID)) data_array s ∧
    (readNeuron K bus neuronID data_array s).1 = 0 ∧
    ∃ (a b : Nat) (cats : List Nat) (ctx : Nat) (comps : List Nat) (aif minif cat : Nat),
      cats.length = (max K.firstNeuronID (min neuronID K.lastNeuronID) - 1).toNat ∧
      comps.length = K.saveRestoreSize.toNat ∧
      (readNeuron K bus neuronID data_array s).2.2.trace
        = s.trace ++ [Event.rd Reg.NSR a, Event.rd Reg.NSR b,
            Event.wr Reg.NSR ((b ||| K.NSR_NET_MODE) % 65536), Event.wr Reg.RSTCHAIN 0]
          ++ cats.map (Event.rd Reg.CAT)
          ++ saveReads ctx comps aif minif cat
          ++ [Event.wr Reg.NSR ((a &&& not32 K.NSR_NET_MODE) % 65536)] := by
  rw [← clampNeuronID_eq K neuronID h2]
  obtain ⟨hlo, hhi⟩ := clampNeuronID_range K neuronID h2
  refine ⟨hlo, hhi, ?_, rfl, ?_⟩
  · simp only [readNeuron, clampNeuronID_idem K neuronID h2]
  · obtain ⟨a, b, hbt, hbs⟩ := beginSaveMode_trace K bus s
    obtain ⟨cats, hcl, hct, hcs⟩ := forInt_advance bus
      (clampNeuronID K neuronID - 1).toNat (beginSaveMode K bus s)
    rw [← forInt_toNat] at hct hcs
    obtain ⟨ctx, comps, aif, minif, cat, hml, hmt, hms⟩ :=
      iterateNeuronsToSave_trace K bus data_array
        (forInt (clampNeuronID K neuronID - 1) (advanceStep bus) (beginSaveMode K bus s))
    refine ⟨a, b, cats, ctx, comps, aif, minif, cat, hcl, hml, ?_⟩
    simp only [readNeuron, endSaveMode, regWrite16, hmt, hms, hct, hcs, hbt, hbs]

/-- C6, witness: the Curie constants, the memory-like device, `neuronID = 500`:
the call is `readNeuron(128, out)` and returns 0. -/
theorem readNeuron_clamps_before_advancing_witness :
    curie.firstNeuronID ≤ curie.lastNeuronID ∧
    max curie.firstNeuronID (min 500 curie.lastNeuronID) = 128 ∧
    readNeuron curie memBus 500 blankRecord (initMem (fun _ => 0))
      = readNeuron curie memBus (max curie.firstNeuronID (min 500 curie.lastNeuronID))
          blankRecord (initMem (fun _ => 0)) ∧
    (readNeuron curie memBus 500 blankRecord (initMem (fun _ => 0))).1 = 0 :=
  ⟨by decide, by decide,
   (readNeuron_clamps_before_advancing curie memBus 500 blankRecord (initMem (fun _ => 0))
      (by decide)).2.2.1,
   (readNeuron_clamps_before_advancing curie memBus 500 blankRecord (initMem (fun _ => 0))
      (by decide)).2.2.2.1⟩

/-! ## Index safety of pattern submission -/

section IndexSafety
variable {σ : Type} (K : Consts) (bus : Bus σ) (pattern_vector : Pattern)

end IndexSafety

/-- C1, witness: the Curie constants, the memory-like device, a 200-byte
buffer: `learn` with length 200 is `learn` with length 128. -/
theorem learn_clamps_to_maxVectorSize_witness :
    (200 : Int) > curie.maxVectorSize ∧
    learn curie memBus longPattern 200 5 (initMem (fun _ => 0))
      = learn curie memBus longPattern curie.maxVectorSize 5 (initMem (fun _ => 0)) :=
  ⟨by decide,
   (learn_clamps_to_maxVectorSize curie memBus longPattern 200 5 (initMem (fun _ => 0))
      (by decide)).1⟩

end CuriePME
